import Mathlib

/-!
Verification of the partition-layout engine and the manifest-composition
system of katsu (`src/config.rs`), as a shallow embedding in Lean 4.

Modelling conventions:
* Machine integers (`u64` byte counts, `u8` flag positions, `usize` indices)
  are modelled as `Nat`; none of the verified code paths perform arithmetic
  that can reach `2^64` on the inputs the claims quantify over, and the
  claims are not about overflow behaviour.
* Rust `String` ordering (`Ord for String`, byte-wise lexicographic) is
  modelled by `charListCmp` on the character list; UTF-8 byte order agrees
  with code-point order, so the two coincide.
* Fallible operations (`unimplemented!`, `todo!`) are modelled with `Option`,
  `none` standing for the fatal abort.
* External side effects (running `parted`/`mount`/`umount`/`mkfs`, querying
  `findmnt`/`blkid`, file IO, logging) are outside the embedding; for each
  effectful routine we embed the pure plan it computes: the ordered list of
  partitions it would act on and the strings it would pass to the tools.
-/

/-! ## Rust `Ordering` model: three-way comparisons -/

/-- Three-way comparison of character lists, the model of Rust
`String::cmp` (lexicographic). -/
def charListCmp : List Char → List Char → Ordering
  | [], [] => .eq
  | [], _ :: _ => .lt
  | _ :: _, [] => .gt
  | a :: as, b :: bs => if a < b then .lt else if b < a then .gt else charListCmp as bs

/-- Model of Rust `a.cmp(&b)` on `String`. -/
def strCmp (a b : String) : Ordering := charListCmp a.data b.data

/-! ## Partition model (`src/config.rs`) -/

/-- GPT partition types, from `enum PartitionType` in `src/config.rs`. -/
inductive PartitionType where
  | root
  | rootArm64
  | rootX86_64
  | esp
  | xbootldr
  | swapPart
  | linuxGeneric
  | biosGrub
  | guid (value : String)
deriving DecidableEq

/-- Model of `PartitionType::uuid`; `none` models the
`unimplemented!()` abort for an unknown target architecture. -/
def PartitionType.uuid (t : PartitionType) (target_arch : String) : Option String :=
  match t with
  | .root =>
    -- the source delegates to `RootX86_64.uuid` / `RootArm64.uuid`,
    -- which return the constants below
    match target_arch with
    | "x86_64" => some "4f68bce3-e8cd-4db1-96e7-fbcaf984b709"
    | "aarch64" => some "b921b045-1df0-41c3-af44-4c6f280d3fae"
    | _ => none
  | .rootArm64 => some "b921b045-1df0-41c3-af44-4c6f280d3fae"
  | .rootX86_64 => some "4f68bce3-e8cd-4db1-96e7-fbcaf984b709"
  | .esp => some "c12a7328-f81f-11d2-ba4b-00a0c93ec93b"
  | .xbootldr => some "bc13c2ff-59e6-4262-a352-b275fd6f7172"
  | .swapPart => some "0657fd6d-a4ab-43c4-84e5-0933c84b4f4f"
  | .linuxGeneric => some "0fc63daf-8483-4772-8e79-3d69d8477de4"
  | .biosGrub => some "21686148-6449-6E6F-744E-656564454649"
  | .guid g => some g

/-- GPT partition attribute flags, from `enum PartitionFlag` in
`src/config.rs`; the `flagPosition` payload is a `u8` in the source. -/
inductive PartitionFlag where
  | noAuto
  | readOnly
  | growFs
  | flagPosition (position : Nat)
deriving DecidableEq

/-- Model of `PartitionFlag::flag_position`; `none` models the
`unimplemented!()` abort on a numeric flag outside `0..=63`. -/
def PartitionFlag.flag_position : PartitionFlag → Option Nat
  | .noAuto => some 63
  | .readOnly => some 60
  | .growFs => some 59
  | .flagPosition position => if position ≤ 63 then some position else none

/-- From `struct BtrfsSubvolume` in `src/config.rs`. -/
structure BtrfsSubvolume where
  name : String
  mountpoint : String
deriving DecidableEq

/-- From `struct Partition` in `src/config.rs`; `size` is the optional
size in bytes (`Option<ByteSize>` in the source). -/
structure Partition where
  label : Option String
  partition_type : PartitionType
  flags : Option (List PartitionFlag)
  size : Option Nat
  filesystem : String
  mountpoint : String
  subvolumes : List BtrfsSubvolume
deriving DecidableEq

/-- From `struct PartitionLayout` in `src/config.rs`; `size` is the
optional total-disk-size hint in bytes. -/
structure PartitionLayout where
  size : Option Nat
  partitions : List Partition
deriving DecidableEq

/-- Model of `PartitionLayout::get_index`: 1-based index of the first
partition with the given mountpoint. -/
def PartitionLayout.get_index (l : PartitionLayout) (mountpoint : String) : Option Nat :=
  (l.partitions.findIdx? (fun p => p.mountpoint == mountpoint)).map (· + 1)

/-- Model of `PartitionLayout::get_partition`. -/
def PartitionLayout.get_partition (l : PartitionLayout) (mountpoint : String) : Option Partition :=
  l.partitions.find? (fun p => p.mountpoint == mountpoint)

/-- Model of Rust `s.trim_end_matches('/').matches('/').count()` from the
`sort_partitions` comparator: the number of slashes once trailing slashes
are removed.  Dropping the trailing slashes from the reversed character
list removes exactly the trailing slashes, and counting is
order-independent. -/
def slashCount (s : String) : Nat :=
  (s.data.reverse.dropWhile (fun c => c == '/')).count '/'

/-- The comparator closure passed to `sort_unstable_by` in
`PartitionLayout::sort_partitions`, compared on the two mountpoints.
The final `else` of the source is `am.cmp(&bm)`, reached only when
`am ≠ bm`, so it is `lt`/`gt` by `am < bm`. -/
def mountpointCmp (a b : String) : Ordering :=
  let am := slashCount a
  let bm := slashCount b
  if a = "" then .lt
  else if b = "" then .gt
  else if a = "/" then .lt
  else if b = "/" then .gt
  else if am = bm then strCmp a b
  else if am < bm then .lt else .gt

/-- The sort relation used by the model of `sort_unstable_by`: entry `x`
may stay before entry `y` when the comparator does not say `Greater`. -/
def partLe (x y : Nat × Partition) : Prop :=
  mountpointCmp x.2.mountpoint y.2.mountpoint ≠ .gt

instance partLe.decRel : DecidableRel partLe := fun x y =>
  if h : mountpointCmp x.2.mountpoint y.2.mountpoint = .gt then
    .isFalse (fun hn => hn h)
  else
    .isTrue h

/-- Insertion into a `BTreeMap<usize, Partition>` held as an ascending
association list: replaces the value on an existing key. -/
def btreeInsert : List (Nat × Partition) → Nat → Partition → List (Nat × Partition)
  | [], k, v => [(k, v)]
  | (k2, v2) :: rest, k, v =>
    if k < k2 then (k, v) :: (k2, v2) :: rest
    else if k = k2 then (k, v) :: rest
    else (k2, v2) :: btreeInsert rest k v

/-- The `BTreeMap` built in `PartitionLayout::sort_partitions`, collected
in ascending key order: each partition is inserted under
`get_index(its mountpoint)`.  The `unwrap` in the source cannot fail (the
partition is an element of the list, so its mountpoint is found); the
`getD 0` default is therefore never used. -/
def PartitionLayout.sortedByIndex (l : PartitionLayout) : List (Nat × Partition) :=
  l.partitions.foldl (fun m p => btreeInsert m ((l.get_index p.mountpoint).getD 0) p) []

/-- Model of `PartitionLayout::sort_partitions`.  `sort_unstable_by` is
modelled by `List.insertionSort`: on the association list produced by the
`BTreeMap` all mountpoints are distinct, so the comparator is a strict
total order there and every comparison sort returns the same list. -/
def PartitionLayout.sort_partitions (l : PartitionLayout) : List (Nat × Partition) :=
  List.insertionSort partLe l.sortedByIndex

/-- The skip condition of the loop in `PartitionLayout::mount_to_chroot`
(the partition is warned about and skipped, not mounted). -/
def Partition.mount_skip (p : Partition) : Bool :=
  p.mountpoint == "" || p.filesystem == "none" || p.filesystem == "swap" || p.mountpoint == "-"

/-- The entries `(original index, partition)` actually mounted by
`PartitionLayout::mount_to_chroot`, in the order it processes them; each
entry stands for one `mkdir -p` plus `mount` invocation on the device
named after the original index. -/
def PartitionLayout.mount_to_chroot_plan (l : PartitionLayout) : List (Nat × Partition) :=
  l.sort_partitions.filter (fun e => !e.2.mount_skip)

/-- The sequence of mountpoints processed by `mount_to_chroot`. -/
def PartitionLayout.mount_seq (l : PartitionLayout) : List String :=
  l.mount_to_chroot_plan.map (fun e => e.2.mountpoint)

/-- The sequence of mountpoints processed by
`PartitionLayout::unmount_from_chroot`: the sorted entries in reverse,
mapped to their mountpoints, skipping only `""` and `"-"` (one `umount`
invocation per element). -/
def PartitionLayout.unmount_from_chroot_seq (l : PartitionLayout) : List String :=
  (l.sort_partitions.reverse.map (fun e => e.2.mountpoint)).filter
    (fun mp => !(mp == "" || mp == "-"))

/-- The sorted entries that contribute an fstab entry in
`PartitionLayout::fstab` (every entry whose filesystem is not `"none"`). -/
def PartitionLayout.fstab_kept (l : PartitionLayout) : List (Nat × Partition) :=
  l.sort_partitions.filter (fun e => !(e.2.filesystem == "none"))

/-- The pure fields `(mp, fsname, fsck)` of the `TplFstabEntry` records
generated by `PartitionLayout::fstab`, in order; the `uuid` field comes
from querying the mounted chroot (`findmnt`/`blkid`) and is external to
the embedding. -/
def PartitionLayout.fstab_entries (l : PartitionLayout) : List (String × String × Nat) :=
  l.fstab_kept.map (fun e =>
    (e.2.mountpoint,
     if e.2.filesystem == "efi" then "vfat" else e.2.filesystem,
     if e.2.filesystem == "efi" then (0 : Nat) else 2))

/-- The `(start, end)` strings handed to `parted mkpart` for each
partition by the fold in `PartitionLayout::apply`, carrying the running
`(i, last_end)` state of the source. -/
def applySteps : List Partition → Nat → Nat → List (String × String)
  | [], _, _ => []
  | p :: rest, i, last_end =>
    let start_string := if i = 1 then "0" else toString (last_end / 1024 / 1024) ++ "MiB"
    match p.size with
    | some size =>
      let new_end := last_end + size
      (start_string, toString (new_end / 1024 / 1024) ++ "MiB") :: applySteps rest (i + 1) new_end
    | none =>
      (start_string, "100%") :: applySteps rest (i + 1) last_end

/-- The geometry plan of `PartitionLayout::apply`: the fold starts at
`(1, 0)` and walks the partitions in declaration order. -/
def PartitionLayout.apply_plan (l : PartitionLayout) : List (String × String) :=
  applySteps l.partitions 1 0

/-- Closed form for the cumulative end counter of `PartitionLayout::apply`
after the first `k` partitions: an unsized partition contributes nothing. -/
def cumEnd (parts : List Partition) (k : Nat) : Nat :=
  ((parts.take k).map (fun p => p.size.getD 0)).sum

/-- The ordering relation stated by the specification for
`sort_partitions` (claim C1), written from the spec's words: the empty
mountpoint sorts before everything, `"/"` next before every other
non-empty path, and the remaining paths ascend by slash count after
trimming trailing slashes, ties broken lexicographically. -/
def specMountLe (a b : String) : Prop :=
  a = "" ∨ (b ≠ "" ∧ (a = "/" ∨ (b ≠ "/" ∧
    (slashCount a < slashCount b ∨ (slashCount a = slashCount b ∧ strCmp a b ≠ .gt)))))

/-! ## Manifest model (`src/config.rs`) -/

/-- From `struct IsoConfig` in `src/config.rs`. -/
structure IsoConfig where
  volume_id : Option String
deriving DecidableEq

/-- Modelled from the spec: the bootloader selection is an enum with a
default, defined in the missing `src/builder.rs`; the spec does not
enumerate its variants, so it is represented by its identifier string.
Only its default value and equality are used by the claims. -/
structure Bootloader where
  ident : String
deriving DecidableEq

instance : Inhabited Bootloader := ⟨⟨""⟩⟩

/-- Modelled from the spec: the DNF package-manager configuration group
(`crate::builder::DnfRootBuilder`, missing from `src/`), with the fields
`src/config.rs` manipulates (`packages`, `arch_packages`, `arch_exclude`,
`exclude`, `options`, `global_options`, `repodir`) plus the repository
definitions the spec says imports may contribute. -/
structure DnfRootBuilder where
  packages : List String
  arch_packages : List (String × List String)
  arch_exclude : List (String × List String)
  exclude : List String
  options : List (String × String)
  global_options : List (String × String)
  repodir : Option String
  repos : List String
deriving DecidableEq

instance : Inhabited DnfRootBuilder := ⟨⟨[], [], [], [], [], [], none, []⟩⟩

/-- Modelled from the spec: the bootc root-builder configuration group
(missing from `src/`); the spec names the field but describes none of its
contents and no claim depends on them. -/
structure BootcRootBuilder where
deriving DecidableEq

instance : Inhabited BootcRootBuilder := ⟨⟨⟩⟩

/-- From `struct Script` in `src/config.rs`; the `file` path is a string
here. -/
structure Script where
  id : Option String
  name : Option String
  file : Option String
  «inline» : Option String
  chroot : Option Bool
  needs : List String
  priority : Int
deriving DecidableEq

/-- From `struct ScriptsManifest` in `src/config.rs`. -/
structure ScriptsManifest where
  pre : List Script
  post : List Script
deriving DecidableEq

/-- From `struct Auth` in `src/config.rs`. -/
structure Auth where
  username : String
  password : Option String
  groups : List String
  create_home : Bool
  shell : Option String
  uid : Option Nat
  gid : Option Nat
  ssh_keys : List String
deriving DecidableEq

/-- The fields of `struct Manifest` in `src/config.rs` other than the
`import` list (the resolved import tree is carried separately by
`ManifestTree`, since path resolution and file loading are external). -/
structure ManifestData where
  builder : Option String
  distro : Option String
  out_file : Option String
  disk : Option PartitionLayout
  dnf : DnfRootBuilder
  bootc : BootcRootBuilder
  scripts : ScriptsManifest
  users : List Auth
  kernel_cmdline : Option String
  iso : Option IsoConfig
  bootloader : Bootloader
deriving DecidableEq

/-- A manifest together with its already-loaded imports: the recursive
structure `Manifest::load_all` walks (each `import` path loaded from disk
becomes a child tree). -/
inductive ManifestTree where
  | node (data : ManifestData) (imports : List ManifestTree)

/-- The root data of a manifest tree. -/
def ManifestTree.data : ManifestTree → ManifestData
  | .node d _ => d

/-- The imports of a manifest tree. -/
def ManifestTree.imports : ManifestTree → List ManifestTree
  | .node _ imps => imps

/-- The output formats recognised by the CLI (`crate::cli::OutputFormat`,
missing from `src/`). Modelled from the spec: `iso`, `device`
(unimplemented), `disk-image`, `folder`. -/
inductive OutputFormat where
  | iso
  | device
  | diskImage
  | folder
deriving DecidableEq

/-- Modelled from the spec: key-wise union of two maps held as
association lists, the accumulator's bindings winning on shared keys with
the values merged by `m2`. -/
def mergeAssoc (m2 : β → β → β) (a b : List (String × β)) : List (String × β) :=
  (a.map (fun kv =>
    match b.find? (fun kv2 => kv2.1 == kv.1) with
    | some kv2 => (kv.1, m2 kv.2 kv2.2)
    | none => kv))
  ++ b.filter (fun kv2 => !(a.any (fun kv => kv.1 == kv2.1)))

/-- Modelled from the spec: deep merge of an optional subobject — both
present merges recursively, otherwise whichever side is present. -/
def mergeOptWith (m : α → α → α) : Option α → Option α → Option α
  | some x, some y => some (m x y)
  | some x, none => some x
  | none, y => y

/-- Modelled from the spec: generic deep merge of two `IsoConfig`s. -/
def IsoConfig.merge (a b : IsoConfig) : IsoConfig :=
  ⟨a.volume_id.or b.volume_id⟩

/-- Modelled from the spec: generic deep merge of two partition layouts
(scalar hint: accumulator wins; partition list: concatenation). -/
def PartitionLayout.merge (a b : PartitionLayout) : PartitionLayout :=
  ⟨a.size.or b.size, a.partitions ++ b.partitions⟩

/-- Modelled from the spec: generic deep merge of the DNF group — list
fields concatenate, maps union key-wise with the accumulator winning on
conflicts, scalars keep the accumulator's value when present. -/
def DnfRootBuilder.merge (a b : DnfRootBuilder) : DnfRootBuilder where
  packages := a.packages ++ b.packages
  arch_packages := mergeAssoc (· ++ ·) a.arch_packages b.arch_packages
  arch_exclude := mergeAssoc (· ++ ·) a.arch_exclude b.arch_exclude
  exclude := a.exclude ++ b.exclude
  options := mergeAssoc (fun x _ => x) a.options b.options
  global_options := mergeAssoc (fun x _ => x) a.global_options b.global_options
  repodir := a.repodir.or b.repodir
  repos := a.repos ++ b.repos

/-- Modelled from the spec: generic deep merge of the scripts group
(ordered sequences concatenate). -/
def ScriptsManifest.merge (a b : ScriptsManifest) : ScriptsManifest :=
  ⟨a.pre ++ b.pre, a.post ++ b.post⟩

/-- Modelled from the spec: the generic deep merge `merge_struct::merge`
performs during import folding, on the accumulator `a` and the freshly
resolved import `b` — scalar leaves keep the more specific (accumulator)
value when present, list-valued fields concatenate, nested groups merge
recursively. -/
def ManifestData.merge (a b : ManifestData) : ManifestData where
  builder := a.builder.or b.builder
  distro := a.distro.or b.distro
  out_file := a.out_file.or b.out_file
  disk := mergeOptWith PartitionLayout.merge a.disk b.disk
  dnf := a.dnf.merge b.dnf
  bootc := a.bootc
  scripts := a.scripts.merge b.scripts
  users := a.users ++ b.users
  kernel_cmdline := a.kernel_cmdline.or b.kernel_cmdline
  iso := mergeOptWith IsoConfig.merge a.iso b.iso
  bootloader := a.bootloader

/-- The manifest that enters the import fold of `load_all`: the root
manifest with the bootloader, ISO config and disk layout taken aside and
the DNF group reduced to the package lists, options, excludes and
repository directory that are moved back in. -/
def loadAllBase (d : ManifestData) : ManifestData :=
  { d with
    bootloader := default, iso := none, disk := none,
    dnf := { (default : DnfRootBuilder) with
      packages := d.dnf.packages, arch_packages := d.dnf.arch_packages,
      arch_exclude := d.dnf.arch_exclude, options := d.dnf.options,
      exclude := d.dnf.exclude, repodir := d.dnf.repodir } }

/-- The DNF fields kept aside during the import fold of `load_all`:
everything but the package lists, options, excludes and repository
directory. -/
def loadAllAside (dnf : DnfRootBuilder) : DnfRootBuilder :=
  { dnf with
    packages := [], arch_packages := [], arch_exclude := [],
    options := [], exclude := [], repodir := none }

/-- Model of `Manifest::load_all` on an already-loaded import tree.
`fuel` bounds the recursion depth (the Rust function recurses directly
on the imported files); `none` models a fatal abort — the `todo!()` for
the `Device` output kind, or exhausted fuel.  The body follows the
source: take the bootloader, ISO config, disk layout and the DNF group
aside, move the DNF package lists, options, excludes and repodir back in,
fold the imports with the generic merge, then restore the bootloader,
gate the ISO config and disk layout on the output kind, and reassemble
the DNF group. -/
def loadAll : Nat → ManifestTree → OutputFormat → Option ManifestData
  | 0, _, _ => none
  | fuel + 1, .node d imps, output =>
    let bootloader := d.bootloader
    let iso := d.iso
    let disk := d.disk
    (imps.foldl
        (fun acc t => acc.bind fun a => (loadAll fuel t output).map fun r => a.merge r)
        (some (loadAllBase d))).bind
      fun m1 =>
        (match output with
          | .iso => some { m1 with bootloader := bootloader, iso := iso.or m1.iso }
          | .device => none
          | .diskImage => some { m1 with bootloader := bootloader, disk := disk.or m1.disk }
          | .folder => some { m1 with bootloader := bootloader, out_file := none }).map
          fun (m3 : ManifestData) =>
            { m3 with
              dnf := { loadAllAside d.dnf with
                packages := m3.dnf.packages,
                arch_packages := m3.dnf.arch_packages,
                arch_exclude := m3.dnf.arch_exclude,
                exclude := m3.dnf.exclude,
                repodir := m3.dnf.repodir,
                options := mergeAssoc (fun x _ => x) m3.dnf.options m3.dnf.global_options } }

/-- Whether `fuel` covers the depth of the import tree, so that `loadAll`
does not abort for lack of fuel. -/
def hasFuel : Nat → ManifestTree → Bool
  | 0, _ => false
  | fuel + 1, .node _ imps => imps.all (hasFuel fuel)

/-- Reference recursion for the composed package list: the root's
packages followed by each import's composed packages, in import order. -/
def flattenPackages : Nat → ManifestTree → List String
  | 0, _ => []
  | fuel + 1, .node d imps => d.dnf.packages ++ (imps.map (flattenPackages fuel)).flatten

/-- Reference recursion for the composed generic exclude list. -/
def flattenExclude : Nat → ManifestTree → List String
  | 0, _ => []
  | fuel + 1, .node d imps => d.dnf.exclude ++ (imps.map (flattenExclude fuel)).flatten

/-- Reference recursion for the composed repository directory: the
root's when set, otherwise the first import's composed value. -/
def flattenRepodir : Nat → ManifestTree → Option String
  | 0, _ => none
  | fuel + 1, .node d imps =>
    imps.foldl (fun a t => a.or (flattenRepodir fuel t)) d.dnf.repodir

/-! ## Concrete inputs used by witnesses and counterexamples -/

/-- The EFI partition of the `test_partlay` fixture in `src/config.rs`
(100 MiB, `efi`, mounted at `/boot/efi`). -/
def efiPart : Partition :=
  { label := some "EFI", partition_type := .esp, flags := none,
    size := some (100 * 1024 * 1024), filesystem := "efi",
    mountpoint := "/boot/efi", subvolumes := [] }

/-- The boot partition of the `test_partlay` fixture (100 GiB, `ext4`,
mounted at `/boot`). -/
def bootPart : Partition :=
  { label := some "boot", partition_type := .xbootldr, flags := none,
    size := some (100 * 1024 * 1024 * 1024), filesystem := "ext4",
    mountpoint := "/boot", subvolumes := [] }

/-- The root partition of the `test_partlay` fixture (100 GiB, `ext4`,
mounted at `/`). -/
def rootPart : Partition :=
  { label := some "ROOT", partition_type := .root, flags := none,
    size := some (100 * 1024 * 1024 * 1024), filesystem := "ext4",
    mountpoint := "/", subvolumes := [] }

/-- The layout of the `test_partlay` fixture: EFI, boot, ROOT in
declaration order. -/
def examplePartlay : PartitionLayout := ⟨none, [efiPart, bootPart, rootPart]⟩

/-- A swap partition occupying a slot without a mountpoint. -/
def swapNoMp : Partition :=
  { label := some "swap", partition_type := .swapPart, flags := none,
    size := some (2 * 1024 * 1024 * 1024), filesystem := "swap",
    mountpoint := "", subvolumes := [] }

/-- A BIOS-grub partition occupying a slot without a mountpoint. -/
def biosNoMp : Partition :=
  { label := some "bios", partition_type := .biosGrub, flags := none,
    size := some (1024 * 1024), filesystem := "none",
    mountpoint := "", subvolumes := [] }

/-- Two declared partitions sharing the empty mountpoint. -/
def dupMountpointLayout : PartitionLayout := ⟨none, [swapNoMp, biosNoMp]⟩

/-- A partition with filesystem `"none"` but a real mountpoint. -/
def noneFsMounted : Partition :=
  { label := none, partition_type := .linuxGeneric, flags := none,
    size := some (1024 * 1024 * 1024), filesystem := "none",
    mountpoint := "/data", subvolumes := [] }

/-- A layout whose mount and unmount filters disagree: the `/data`
partition is skipped by mount (filesystem `"none"`) but not by unmount. -/
def unmountCexLayout : PartitionLayout := ⟨none, [rootPart, noneFsMounted]⟩

/-- A layout holding only the un-mountable swap partition. -/
def swapOnlyLayout : PartitionLayout := ⟨none, [swapNoMp]⟩

/-- A root partition declared without a size. -/
def unsizedRoot : Partition :=
  { label := some "ROOT", partition_type := .root, flags := none,
    size := none, filesystem := "ext4", mountpoint := "/", subvolumes := [] }

/-- A layout whose first partition has no declared size. -/
def unsizedFirstLayout : PartitionLayout := ⟨none, [unsizedRoot, efiPart]⟩

/-- An empty manifest: every field absent or empty. -/
def emptyManifestData : ManifestData :=
  { builder := none, distro := none, out_file := none, disk := none,
    dnf := default, bootc := ⟨⟩, scripts := ⟨[], []⟩, users := [],
    kernel_cmdline := none, iso := none, bootloader := ⟨""⟩ }

/-- An imported manifest that declares its own package list. -/
def importWithPackages : ManifestTree :=
  .node { emptyManifestData with
    dnf := { (default : DnfRootBuilder) with packages := ["extra"] } } []

/-- A root manifest declaring packages, with one import that also
declares packages. -/
def rootWithPackages : ManifestTree :=
  .node { emptyManifestData with
    dnf := { (default : DnfRootBuilder) with packages := ["base"] } }
    [importWithPackages]

/-- An imported manifest that declares a different bootloader. -/
def importOtherBootloader : ManifestTree :=
  .node { emptyManifestData with bootloader := ⟨"limine"⟩ } []

/-- A root manifest selecting a bootloader, with an import that selects a
different one. -/
def rootGrubBootloader : ManifestTree :=
  .node { emptyManifestData with bootloader := ⟨"grub"⟩ } [importOtherBootloader]

/-! ## Properties of the comparators -/

/-- If neither step of a lexicographic chain says `Greater`, the
composite does not say `Greater`. -/
theorem charListCmp_not_gt_trans : ∀ {as bs cs : List Char},
    charListCmp as bs ≠ .gt → charListCmp bs cs ≠ .gt → charListCmp as cs ≠ .gt := by
  intro as
  induction as with
  | nil =>
    intro bs cs _ _
    cases cs <;> simp [charListCmp]
  | cons a as ih =>
    intro bs cs h1 h2
    cases bs with
    | nil => simp [charListCmp] at h1
    | cons b bs =>
      cases cs with
      | nil => simp [charListCmp] at h2
      | cons c cs =>
        simp only [charListCmp] at h1 h2 ⊢
        rcases lt_trichotomy a b with hab | hab | hab
        · rcases lt_trichotomy b c with hbc | hbc | hbc
          · rw [if_pos (lt_trans hab hbc)]; simp
          · subst hbc; rw [if_pos hab]; simp
          · rw [if_neg (asymm hbc), if_pos hbc] at h2; exact absurd rfl h2
        · subst hab
          rw [if_neg (lt_irrefl a), if_neg (lt_irrefl a)] at h1
          rcases lt_trichotomy a c with hac | hac | hac
          · rw [if_pos hac]; simp
          · subst hac
            rw [if_neg (lt_irrefl a), if_neg (lt_irrefl a)] at h2 ⊢
            exact ih h1 h2
          · rw [if_neg (asymm hac), if_pos hac] at h2; exact absurd rfl h2
        · rw [if_neg (asymm hab), if_pos hab] at h1; exact absurd rfl h1

/-- The lexicographic comparison cannot say `Greater` both ways. -/
theorem charListCmp_gt_asymm : ∀ {as bs : List Char},
    charListCmp as bs = .gt → charListCmp bs as ≠ .gt := by
  intro as
  induction as with
  | nil =>
    intro bs h
    cases bs <;> simp [charListCmp] at h
  | cons a as ih =>
    intro bs h
    cases bs with
    | nil => simp [charListCmp]
    | cons b bs =>
      simp only [charListCmp] at h ⊢
      rcases lt_trichotomy a b with hab | hab | hab
      · rw [if_pos hab] at h; exact absurd h (by decide)
      · subst hab
        rw [if_neg (lt_irrefl a), if_neg (lt_irrefl a)] at h ⊢
        exact ih h
      · rw [if_neg (asymm hab), if_pos hab]; simp

/-- The comparator of `sort_partitions` agrees with the ordering relation
stated by the spec: it refrains from `Greater` exactly when the spec
orders the first mountpoint no later than the second. -/
theorem mountpointCmp_not_gt_iff (a b : String) :
    mountpointCmp a b ≠ .gt ↔ specMountLe a b := by
  unfold mountpointCmp specMountLe
  by_cases h1 : a = ""
  · simp [h1]
  by_cases h2 : b = ""
  · simp [h1, h2]
  by_cases h3 : a = "/"
  · simp [h1, h2, h3]
  by_cases h4 : b = "/"
  · simp [h1, h2, h3, h4]
  by_cases h5 : slashCount a = slashCount b
  · simp [h1, h2, h3, h4, h5, lt_irrefl]
  by_cases h6 : slashCount a < slashCount b
  · simp [h1, h2, h3, h4, h5, h6]
  · simp [h1, h2, h3, h4, h5, h6]

/-- Transitivity of the spec's mountpoint ordering. -/
theorem specMountLe_trans {a b c : String}
    (h1 : specMountLe a b) (h2 : specMountLe b c) : specMountLe a c := by
  unfold specMountLe strCmp at h1 h2 ⊢
  rcases h1 with h1 | ⟨hb, h1⟩
  · exact .inl h1
  · rcases h2 with h2 | ⟨hc, h2⟩
    · exact absurd h2 hb
    · refine .inr ⟨hc, ?_⟩
      rcases h1 with h1 | ⟨hbs, h1⟩
      · exact .inl h1
      · rcases h2 with h2 | ⟨hcs, h2⟩
        · exact absurd h2 hbs
        · refine .inr ⟨hcs, ?_⟩
          rcases h1 with h1 | ⟨he1, hx1⟩ <;> rcases h2 with h2 | ⟨he2, hx2⟩
          · exact .inl (lt_trans h1 h2)
          · exact .inl (by omega)
          · exact .inl (by omega)
          · exact .inr ⟨by omega, charListCmp_not_gt_trans hx1 hx2⟩

/-- Totality of the spec's mountpoint ordering. -/
theorem specMountLe_total (a b : String) : specMountLe a b ∨ specMountLe b a := by
  unfold specMountLe strCmp
  by_cases ha : a = ""
  · exact .inl (.inl ha)
  by_cases hb : b = ""
  · exact .inr (.inl hb)
  by_cases ha2 : a = "/"
  · exact .inl (.inr ⟨hb, .inl ha2⟩)
  by_cases hb2 : b = "/"
  · exact .inr (.inr ⟨ha, .inl hb2⟩)
  rcases Nat.lt_trichotomy (slashCount a) (slashCount b) with h | h | h
  · exact .inl (.inr ⟨hb, .inr ⟨hb2, .inl h⟩⟩)
  · by_cases hcmp : charListCmp a.data b.data = .gt
    · exact .inr (.inr ⟨ha, .inr ⟨ha2, .inr ⟨h.symm, charListCmp_gt_asymm hcmp⟩⟩⟩)
    · exact .inl (.inr ⟨hb, .inr ⟨hb2, .inr ⟨h, hcmp⟩⟩⟩)
  · exact .inr (.inr ⟨ha, .inr ⟨ha2, .inl h⟩⟩)

instance : IsTrans (Nat × Partition) partLe :=
  ⟨fun _ _ _ h1 h2 =>
    (mountpointCmp_not_gt_iff _ _).mpr
      (specMountLe_trans ((mountpointCmp_not_gt_iff _ _).mp h1)
        ((mountpointCmp_not_gt_iff _ _).mp h2))⟩

instance : IsTotal (Nat × Partition) partLe :=
  ⟨fun x y => by
    rcases specMountLe_total x.2.mountpoint y.2.mountpoint with h | h
    · exact .inl ((mountpointCmp_not_gt_iff _ _).mpr h)
    · exact .inr ((mountpointCmp_not_gt_iff _ _).mpr h)⟩

/-- Every entry of a `btreeInsert` is the inserted pair or an entry of
the original map. -/
theorem mem_btreeInsert {x : Nat × Partition} :
    ∀ {m : List (Nat × Partition)} {k : Nat} {v : Partition},
      x ∈ btreeInsert m k v → x = (k, v) ∨ x ∈ m := by
  intro m
  induction m with
  | nil =>
    intro k v h
    simp [btreeInsert] at h
    exact .inl h
  | cons kv rest ih =>
    intro k v h
    obtain ⟨k2, v2⟩ := kv
    simp only [btreeInsert] at h
    split_ifs at h
    · simpa using h
    · rcases List.mem_cons.mp h with h | h
      · exact .inl h
      · exact .inr (List.mem_cons_of_mem _ h)
    · rcases List.mem_cons.mp h with h | h
      · exact .inr (List.mem_cons.mpr (.inl h))
      · rcases ih h with h | h
        · exact .inl h
        · exact .inr (List.mem_cons_of_mem _ h)

/-- Every value in the fold that builds the `BTreeMap` comes from the
accumulator or the partition list. -/
theorem foldl_btreeInsert_mem {x : Nat × Partition} (f : Partition → Nat) :
    ∀ (ps : List Partition) (acc : List (Nat × Partition)),
      x ∈ ps.foldl (fun m p => btreeInsert m (f p) p) acc → x ∈ acc ∨ x.2 ∈ ps := by
  intro ps
  induction ps with
  | nil => intro acc h; exact .inl h
  | cons p ps ih =>
    intro acc h
    rcases ih (btreeInsert acc (f p) p) h with h | h
    · rcases mem_btreeInsert h with h | h
      · subst h; exact .inr (List.mem_cons_self _ _)
      · exact .inl h
    · exact .inr (List.mem_cons_of_mem _ h)

/-- The partition of every sorted entry is one of the layout's declared
partitions. -/
theorem mem_sort_partitions_snd {l : PartitionLayout} {x : Nat × Partition}
    (h : x ∈ l.sort_partitions) : x.2 ∈ l.partitions := by
  have hperm := List.perm_insertionSort partLe l.sortedByIndex
  have hx : x ∈ l.sortedByIndex := hperm.mem_iff.mp h
  have := foldl_btreeInsert_mem
    (fun p => (l.get_index p.mountpoint).getD 0) l.partitions [] hx
  rcases this with h | h
  · simp at h
  · exact h

/-! ## Geometry lemmas for `apply` -/

/-- The cumulative end counter ignores the partitions after the prefix. -/
theorem cumEnd_cons_succ (p : Partition) (rest : List Partition) (k : Nat) :
    cumEnd (p :: rest) (k + 1) = p.size.getD 0 + cumEnd rest k := by
  simp [cumEnd, List.take_succ_cons]

/-- Closed form for the entries of the `apply` geometry fold, for an
arbitrary running state `(i, last_end)`. -/
theorem applySteps_getElem :
    ∀ (parts : List Partition) (i last_end k : Nat) (p : Partition),
      parts[k]? = some p →
      (applySteps parts i last_end)[k]? = some
        ((if i + k = 1 then "0"
          else toString ((last_end + cumEnd parts k) / 1024 / 1024) ++ "MiB"),
         (match p.size with
          | some _ => toString ((last_end + cumEnd parts (k + 1)) / 1024 / 1024) ++ "MiB"
          | none => "100%")) := by
  intro parts
  induction parts with
  | nil => intro i le k p hp; simp at hp
  | cons q rest ih =>
    intro i le k p hp
    cases k with
    | zero =>
      rw [List.getElem?_cons_zero] at hp
      obtain rfl : q = p := by simpa using hp
      cases hs : q.size with
      | none =>
        simp [applySteps, hs, cumEnd]
      | some s =>
        simp [applySteps, hs, cumEnd, List.take_succ_cons]
    | succ k =>
      rw [List.getElem?_cons_succ] at hp
      cases hs : q.size with
      | none =>
        simp only [applySteps, hs, List.getElem?_cons_succ]
        rw [ih (i + 1) le k p hp]
        have h1 : i + 1 + k = i + (k + 1) := by omega
        simp [cumEnd_cons_succ, hs, h1]
      | some s =>
        simp only [applySteps, hs, List.getElem?_cons_succ]
        rw [ih (i + 1) (le + s) k p hp]
        have h1 : i + 1 + k = i + (k + 1) := by omega
        have h2 : ∀ m, le + s + m = le + (s + m) := by omega
        simp [cumEnd_cons_succ, hs, h1, h2]

/-! ## Claim theorems -/

/-- C1: for every layout, `sort_partitions` orders its entries by the
spec's relation — the empty mountpoint before everything, `"/"` next
before every other non-empty path, the remaining mountpoints by ascending
slash count after trimming trailing slashes with lexicographic
tie-break — and on the fixture declared [EFI at `/boot/efi`, boot at
`/boot`, ROOT at `/`] it returns `[(3, ROOT), (2, boot), (1, EFI)]`. -/
theorem sort_partitions_ordering :
    (∀ l : PartitionLayout,
      (l.sort_partitions.map (fun e => e.2.mountpoint)).Pairwise specMountLe)
    ∧ examplePartlay.sort_partitions = [(3, rootPart), (2, bootPart), (1, efiPart)] := by
  constructor
  · intro l
    have h : List.Pairwise partLe l.sort_partitions :=
      List.sorted_insertionSort partLe l.sortedByIndex
    exact List.pairwise_map.mpr (h.imp fun hxy => (mountpointCmp_not_gt_iff _ _).mp hxy)
  · decide

/-- C2 (code bug): on a layout declaring two partitions with the same
(empty) mountpoint, `sort_partitions` keys its `BTreeMap` by
`get_index`, which finds the first matching mountpoint — the second
partition overwrites the first under key 1, so the result drops a
declared partition and pairs the surviving one with the wrong index. -/
theorem sort_partitions_duplicate_mountpoint_collapse :
    dupMountpointLayout.sort_partitions = [(1, biosNoMp)]
    ∧ dupMountpointLayout.partitions.length = 2 := by decide

/-- C4 (counterexample): the unmount filter keeps filesystem-`"none"`
partitions that the mount filter skips, so on a layout with a `"none"`
partition at `/data` the unmount sequence is not the reverse of the
mount sequence. -/
theorem unmount_not_reverse_of_mount_cex :
    unmountCexLayout.unmount_from_chroot_seq = ["/data", "/"]
    ∧ unmountCexLayout.mount_seq.reverse = ["/"]
    ∧ unmountCexLayout.unmount_from_chroot_seq ≠ unmountCexLayout.mount_seq.reverse := by
  decide

/-- C4 (amended): `mount_to_chroot` skips on mountpoint `""`/`"-"` and
filesystem `"none"`/`"swap"`, while `unmount_from_chroot` skips only on
mountpoint `""`/`"-"`; whenever every partition with filesystem
`"none"`/`"swap"` also has mountpoint `""` or `"-"`, the two filters
agree and the unmount sequence is the exact reverse of the mount
sequence. -/
theorem unmount_reverse_of_mount :
    ∀ l : PartitionLayout,
      (∀ p ∈ l.partitions,
        p.filesystem = "none" ∨ p.filesystem = "swap" →
          p.mountpoint = "" ∨ p.mountpoint = "-") →
      l.unmount_from_chroot_seq = l.mount_seq.reverse := by
  intro l h
  unfold PartitionLayout.unmount_from_chroot_seq PartitionLayout.mount_seq
    PartitionLayout.mount_to_chroot_plan
  rw [List.map_reverse, List.filter_reverse, List.filter_map]
  congr 1
  congr 1
  apply List.filter_congr
  intro e he
  have hp := h e.2 (mem_sort_partitions_snd he)
  simp only [Function.comp, Partition.mount_skip]
  by_cases hmp : e.2.mountpoint = ""
  · simp [beq_iff_eq, hmp]
  by_cases hmp2 : e.2.mountpoint = "-"
  · simp [beq_iff_eq, hmp2]
  have hfs1 : e.2.filesystem ≠ "none" := fun hf => (hp (.inl hf)).elim hmp hmp2
  have hfs2 : e.2.filesystem ≠ "swap" := fun hf => (hp (.inr hf)).elim hmp hmp2
  have b1 : (e.2.mountpoint == "") = false := beq_eq_false_iff_ne.mpr hmp
  have b2 : (e.2.mountpoint == "-") = false := beq_eq_false_iff_ne.mpr hmp2
  have b3 : (e.2.filesystem == "none") = false := beq_eq_false_iff_ne.mpr hfs1
  have b4 : (e.2.filesystem == "swap") = false := beq_eq_false_iff_ne.mpr hfs2
  simp [b1, b2, b3, b4]

/-- Witness for the amended C4: on the three-partition fixture the
hypothesis holds and the sequences are mutually reversed. -/
theorem unmount_reverse_of_mount_witness :
    (∀ p ∈ examplePartlay.partitions,
      p.filesystem = "none" ∨ p.filesystem = "swap" →
        p.mountpoint = "" ∨ p.mountpoint = "-")
    ∧ examplePartlay.unmount_from_chroot_seq = examplePartlay.mount_seq.reverse :=
  ⟨by decide, unmount_reverse_of_mount examplePartlay (by decide)⟩

/-- C5 (counterexample): a swap partition with an empty mountpoint is
skipped by `mount_to_chroot` but still contributes an fstab entry,
because `fstab` filters only on filesystem `"none"`. -/
theorem fstab_includes_sentinel_cex :
    swapOnlyLayout.fstab_entries = [("", "swap", 2)]
    ∧ swapOnlyLayout.mount_to_chroot_plan = [] := by decide

/-- C5 (amended): a partition with mountpoint `""`/`"-"` or filesystem
`"none"`/`"swap"` is never mounted by `mount_to_chroot` (it is skipped,
not an error), while `fstab` keeps exactly the sorted entries whose
filesystem is not `"none"` — sentinel partitions with another
filesystem still contribute an fstab entry. -/
theorem mount_skips_sentinels_fstab_filters_none :
    ∀ (l : PartitionLayout) (e : Nat × Partition),
      (e ∈ l.mount_to_chroot_plan → e.2.mount_skip = false)
      ∧ (e ∈ l.fstab_kept ↔ e ∈ l.sort_partitions ∧ e.2.filesystem ≠ "none") := by
  intro l e
  constructor
  · intro h
    have := (List.mem_filter.mp h).2
    simpa using this
  · unfold PartitionLayout.fstab_kept
    rw [List.mem_filter]
    simp [beq_iff_eq]

/-- Witness for the amended C5: the ROOT entry of the fixture is mounted
(not skipped) and contributes an fstab entry. -/
theorem mount_fstab_filter_witness :
    (3, rootPart).2.mount_skip = false ∧ (3, rootPart) ∈ examplePartlay.fstab_kept :=
  ⟨(mount_skips_sentinels_fstab_filters_none examplePartlay (3, rootPart)).1 (by decide),
   (mount_skips_sentinels_fstab_filters_none examplePartlay (3, rootPart)).2.mpr
     ⟨by decide, by decide⟩⟩

/-- C6: in `apply`, the partitions are walked in declaration order with
a running `(index, cumulative end)` state: the first partition's start
string is `"0"`, every later start string is the previous cumulative end
in MiB, a sized partition advances the cumulative end by its size and
renders it in MiB as its end string, and an unsized partition gets the
end string `"100%"`. -/
theorem apply_geometry_offsets (l : PartitionLayout) (k : Nat) (p : Partition)
    (hp : l.partitions[k]? = some p) :
    l.apply_plan[k]? = some
      ((if k = 0 then "0" else toString (cumEnd l.partitions k / 1024 / 1024) ++ "MiB"),
       (match p.size with
        | some _ => toString (cumEnd l.partitions (k + 1) / 1024 / 1024) ++ "MiB"
        | none => "100%")) := by
  have h := applySteps_getElem l.partitions 1 0 k p hp
  unfold PartitionLayout.apply_plan
  cases k with
  | zero => simpa using h
  | succ k =>
    rw [if_neg (by omega : ¬1 + (k + 1) = 1), Nat.zero_add, Nat.zero_add] at h
    rw [if_neg (Nat.succ_ne_zero k)]
    exact h

/-- Witness for C6: the second fixture partition starts at the 100 MiB
cumulative end of the EFI partition and ends at 102500 MiB. -/
theorem apply_geometry_offsets_witness :
    examplePartlay.apply_plan[1]? = some ("100MiB", "102500MiB") := by
  have h := apply_geometry_offsets examplePartlay 1 bootPart (by decide)
  rw [h]
  decide

/-- C10: a partition with no declared size does not advance the
cumulative end counter: the partition that follows it starts at the MiB
rendering of the very cumulative end the unsized partition started at. -/
theorem unsized_partition_keeps_cumulative_end (l : PartitionLayout) (k : Nat)
    (p q : Partition) (hp : l.partitions[k]? = some p) (hsz : p.size = none)
    (hq : l.partitions[k + 1]? = some q) :
    (l.apply_plan[k + 1]?).map Prod.fst
        = some (toString (cumEnd l.partitions k / 1024 / 1024) ++ "MiB")
    ∧ cumEnd l.partitions (k + 1) = cumEnd l.partitions k := by
  have hcum : cumEnd l.partitions (k + 1) = cumEnd l.partitions k := by
    obtain ⟨hlt, hget⟩ := List.getElem?_eq_some.mp hp
    unfold cumEnd
    rw [List.map_take, List.map_take,
      List.sum_take_succ _ k (by simpa using hlt), List.getElem_map]
    rw [hget, hsz]
    rfl
  refine ⟨?_, hcum⟩
  unfold PartitionLayout.apply_plan
  rw [applySteps_getElem l.partitions 1 0 (k + 1) q hq]
  rw [Option.map_some']
  rw [if_neg (by omega : ¬1 + (k + 1) = 1)]
  rw [Nat.zero_add, hcum]

/-- Witness for C10: in the fixture whose first partition is unsized,
the second partition starts at `"0MiB"`, the MiB rendering of the
cumulative end the unsized partition started at. -/
theorem unsized_partition_keeps_cumulative_end_witness :
    (unsizedFirstLayout.apply_plan[1]?).map Prod.fst
        = some (toString (cumEnd unsizedFirstLayout.partitions 0 / 1024 / 1024) ++ "MiB")
    ∧ cumEnd unsizedFirstLayout.partitions 1 = cumEnd unsizedFirstLayout.partitions 0 :=
  unsized_partition_keeps_cumulative_end unsizedFirstLayout 0 unsizedRoot efiPart
    (by decide) (by decide) (by decide)

/-- C8: `flag_position` maps `NoAuto` to 63, `ReadOnly` to 60, `GrowFs`
to 59, returns an explicit numeric flag unchanged when it lies in
`0..=63`, and fails (models the `unimplemented!()` abort) on every
numeric flag above 63 — in particular on 70. -/
theorem flag_position_resolution :
    PartitionFlag.flag_position .noAuto = some 63
    ∧ PartitionFlag.flag_position .readOnly = some 60
    ∧ PartitionFlag.flag_position .growFs = some 59
    ∧ (∀ n : Nat, n ≤ 63 → PartitionFlag.flag_position (.flagPosition n) = some n)
    ∧ (∀ n : Nat, 63 < n → PartitionFlag.flag_position (.flagPosition n) = none)
    ∧ PartitionFlag.flag_position (.flagPosition 70) = none := by
  refine ⟨rfl, rfl, rfl, ?_, ?_, by decide⟩
  · intro n hn
    simp [PartitionFlag.flag_position, hn]
  · intro n hn
    simp [PartitionFlag.flag_position]
    omega

/-- Witness for C8: an in-range numeric flag passes through, 70 is
rejected. -/
theorem flag_position_resolution_witness :
    PartitionFlag.flag_position (.flagPosition 12) = some 12
    ∧ PartitionFlag.flag_position (.flagPosition 70) = none :=
  ⟨flag_position_resolution.2.2.2.1 12 (by decide),
   flag_position_resolution.2.2.2.2.1 70 (by decide)⟩

/-- C7: the effective manifest's bootloader is always the root
manifest's bootloader, whatever the imports declare and whatever the
output kind. -/
theorem load_all_bootloader_from_root :
    ∀ (fuel : Nat) (t : ManifestTree) (output : OutputFormat) (eff : ManifestData),
      loadAll fuel t output = some eff → eff.bootloader = t.data.bootloader := by
  intro fuel t output eff h
  cases fuel with
  | zero => simp [loadAll] at h
  | succ fuel =>
    cases t with
    | node d imps =>
      simp only [loadAll] at h
      rw [Option.bind_eq_some] at h
      obtain ⟨m1, hm1, h⟩ := h
      rw [Option.map_eq_some'] at h
      obtain ⟨m3, hm3, h⟩ := h
      subst h
      cases output with
      | iso =>
        injection hm3 with hm3
        subst hm3
        simp [ManifestTree.data]
      | device => simp at hm3
      | diskImage =>
        injection hm3 with hm3
        subst hm3
        simp [ManifestTree.data]
      | folder =>
        injection hm3 with hm3
        subst hm3
        simp [ManifestTree.data]

/-- Witness for C7: with an import selecting `"limine"`, the composed
manifest still selects the root's `"grub"`. -/
theorem load_all_bootloader_from_root_witness :
    (loadAll 2 rootGrubBootloader OutputFormat.iso).map ManifestData.bootloader
      = some (Bootloader.mk "grub") := by
  cases h : loadAll 2 rootGrubBootloader OutputFormat.iso with
  | none => exact absurd h (by decide)
  | some eff =>
    have hb := load_all_bootloader_from_root 2 rootGrubBootloader OutputFormat.iso eff h
    rw [Option.map_some', hb]
    decide

/-- C9: a set-aside field is restored only under its gating output kind
and the root's value is otherwise discarded entirely: under `iso` output
the result does not depend on the root's disk layout, and under
`disk-image` output it does not depend on the root's ISO config. -/
theorem load_all_gating_discards_root_value :
    (∀ (fuel : Nat) (d : ManifestData) (x : Option PartitionLayout)
        (imps : List ManifestTree),
      loadAll fuel (.node { d with disk := x } imps) .iso
        = loadAll fuel (.node d imps) .iso)
    ∧ (∀ (fuel : Nat) (d : ManifestData) (x : Option IsoConfig)
        (imps : List ManifestTree),
      loadAll fuel (.node { d with iso := x } imps) .diskImage
        = loadAll fuel (.node d imps) .diskImage) := by
  refine ⟨fun fuel d x imps => ?_, fun fuel d x imps => ?_⟩ <;>
    (cases fuel with
      | zero => rfl
      | succ fuel => simp [loadAll, loadAllBase, loadAllAside])

/-- C3 (counterexample): an import that declares packages contributes
them to the composed package list — the effective list is the root's
`["base"]` concatenated with the import's `["extra"]`, not the root's
list alone. -/
theorem load_all_import_packages_merged_cex :
    (loadAll 2 rootWithPackages .iso).map (fun e => e.dnf.packages)
        = some ["base", "extra"]
    ∧ rootWithPackages.data.dnf.packages = ["base"]
    ∧ (["base", "extra"] : List String) ≠ ["base"] := by decide

/-- The import fold of `load_all`, projected to the three DNF fields the
generic merge touches: packages and excludes concatenate, the repository
directory keeps the first value found. -/
theorem loadAll_foldl_dnf (fuel : Nat) (output : OutputFormat)
    (H : ∀ t : ManifestTree, hasFuel fuel t = true →
      (loadAll fuel t output).map
          (fun e => (e.dnf.packages, e.dnf.exclude, e.dnf.repodir))
        = some (flattenPackages fuel t, flattenExclude fuel t, flattenRepodir fuel t)) :
    ∀ (imps : List ManifestTree) (acc : ManifestData),
      (∀ t ∈ imps, hasFuel fuel t = true) →
      (imps.foldl
          (fun acc t => acc.bind fun a => (loadAll fuel t output).map fun r => a.merge r)
          (some acc)).map
          (fun e => (e.dnf.packages, e.dnf.exclude, e.dnf.repodir))
        = some (acc.dnf.packages ++ (imps.map (flattenPackages fuel)).flatten,
                acc.dnf.exclude ++ (imps.map (flattenExclude fuel)).flatten,
                imps.foldl (fun a t => a.or (flattenRepodir fuel t)) acc.dnf.repodir) := by
  intro imps
  induction imps with
  | nil => intro acc _; simp
  | cons t ts ih =>
    intro acc hf
    have ht : hasFuel fuel t = true := hf t (List.mem_cons_self _ _)
    have hts : ∀ u ∈ ts, hasFuel fuel u = true := fun u hu => hf u (List.mem_cons_of_mem _ hu)
    have hH := H t ht
    rw [Option.map_eq_some'] at hH
    obtain ⟨r, hr, hproj⟩ := hH
    have e1 := congrArg (fun x => x.1) hproj
    have e2 := congrArg (fun x => x.2.1) hproj
    have e3 := congrArg (fun x => x.2.2) hproj
    simp only at e1 e2 e3
    simp only [List.foldl_cons, Option.some_bind, hr, Option.map_some']
    rw [ih (acc.merge r) hts]
    simp [ManifestData.merge, DnfRootBuilder.merge, e1, e2, e3, List.append_assoc]

/-- C3 (amended): for every import tree and implemented output kind, the
effective manifest's package list and generic exclude list are the
root's lists concatenated with each import's composed lists in import
order, the repository directory is the root's when set and otherwise the
first one contributed by the imports, while the repository definitions
and the global options map are taken from the root alone. -/
theorem load_all_dnf_fields :
    ∀ (fuel : Nat) (t : ManifestTree) (output : OutputFormat),
      output ≠ .device → hasFuel fuel t = true →
      (loadAll fuel t output).map
          (fun e => (e.dnf.packages, e.dnf.exclude, e.dnf.repodir,
                     e.dnf.repos, e.dnf.global_options))
        = some (flattenPackages fuel t, flattenExclude fuel t, flattenRepodir fuel t,
                t.data.dnf.repos, t.data.dnf.global_options) := by
  intro fuel
  induction fuel with
  | zero =>
    intro t output _ hfu
    cases t with
    | node d imps => simp [hasFuel] at hfu
  | succ fuel ih =>
    intro t output hout hfu
    cases t with
    | node d imps =>
      have hf : ∀ u ∈ imps, hasFuel fuel u = true := by
        simpa [hasFuel, List.all_eq_true] using hfu
      have H : ∀ u : ManifestTree, hasFuel fuel u = true →
          (loadAll fuel u output).map
              (fun e => (e.dnf.packages, e.dnf.exclude, e.dnf.repodir))
            = some (flattenPackages fuel u, flattenExclude fuel u, flattenRepodir fuel u) := by
        intro u hu
        have h5 := ih u output hout hu
        rw [Option.map_eq_some'] at h5
        obtain ⟨r, hr, hproj⟩ := h5
        have e1 := congrArg (fun x => x.1) hproj
        have e2 := congrArg (fun x => x.2.1) hproj
        have e3 := congrArg (fun x => x.2.2.1) hproj
        simp only at e1 e2 e3
        rw [hr, Option.map_some']
        simp [e1, e2, e3]
      have hfold := loadAll_foldl_dnf fuel output H imps (loadAllBase d) hf
      rw [Option.map_eq_some'] at hfold
      obtain ⟨m1, hm1, hproj⟩ := hfold
      have e1 := congrArg (fun x => x.1) hproj
      have e2 := congrArg (fun x => x.2.1) hproj
      have e3 := congrArg (fun x => x.2.2) hproj
      simp only at e1 e2 e3
      simp only [loadAll]
      rw [hm1]
      cases output with
      | device => exact absurd rfl hout
      | iso =>
        simp [e1, e2, e3, flattenPackages, flattenExclude, flattenRepodir,
          ManifestTree.data, loadAllBase, loadAllAside]
      | diskImage =>
        simp [e1, e2, e3, flattenPackages, flattenExclude, flattenRepodir,
          ManifestTree.data, loadAllBase, loadAllAside]
      | folder =>
        simp [e1, e2, e3, flattenPackages, flattenExclude, flattenRepodir,
          ManifestTree.data, loadAllBase, loadAllAside]

/-- Witness for the amended C3: the packages/excludes/repodir projection
of the composed two-manifest fixture equals the reference recursion. -/
theorem load_all_dnf_fields_witness :
    (loadAll 2 rootWithPackages OutputFormat.iso).map
        (fun e => (e.dnf.packages, e.dnf.exclude, e.dnf.repodir,
                   e.dnf.repos, e.dnf.global_options))
      = some (flattenPackages 2 rootWithPackages, flattenExclude 2 rootWithPackages,
              flattenRepodir 2 rootWithPackages, rootWithPackages.data.dnf.repos,
              rootWithPackages.data.dnf.global_options) :=
  load_all_dnf_fields 2 rootWithPackages OutputFormat.iso (by decide) (by decide)

/-- Witness for C1: the spec ordering holds on the fixture layout. -/
theorem sort_partitions_ordering_witness :
    (examplePartlay.sort_partitions.map (fun e => e.2.mountpoint)).Pairwise specMountLe :=
  sort_partitions_ordering.1 examplePartlay

/-- Witness for C9: under `iso` output, adding a disk layout to the root
manifest leaves the composed manifest unchanged. -/
theorem load_all_gating_discards_root_value_witness :
    loadAll 2 (.node { emptyManifestData with disk := some examplePartlay } []) .iso
      = loadAll 2 (.node emptyManifestData []) .iso :=
  load_all_gating_discards_root_value.1 2 emptyManifestData (some examplePartlay) []
